import Mathlib

/-!
Verification of the marker-driven record splitter in `split_jpeg.py`.

The blob is modelled as a `List Nat` of byte values; offsets are `Nat`
(Python's arbitrary-precision ints are non-negative everywhere the scanning
loop runs; the one signed parameter, `start` of `parse_one_jpeg`, is kept
as `Int`).  A `ValueError` raised by the scanner is modelled by returning
`Except.error` with a constructor named after the raised message.
-/

set_option maxHeartbeats 1000000

/-- Errors raised by the record scanner `parse_one_jpeg` in `split_jpeg.py`.
One constructor per distinct `ValueError` in the source:
`startNotAtSOI` = "start is not at SOI", `truncatedSOSLength` = "Truncated SOS length",
`badSOSSeglen` = "Bad SOS seglen", `truncatedSegmentLength` = "Truncated segment length",
`badSegmentSeglen` = "Bad segment seglen", `eoiNotFound` = "EOI not found for JPEG starting at ...". -/
inductive ParseError where
  | startNotAtSOI
  | truncatedSOSLength
  | badSOSSeglen
  | truncatedSegmentLength
  | badSegmentSeglen
  | eoiNotFound
  deriving DecidableEq

/-- The spec's `TruncatedSegment` error class: a declared length field is unreadable. -/
def isTruncatedSegment : ParseError → Bool
  | .truncatedSOSLength => true
  | .truncatedSegmentLength => true
  | _ => false

/-- The spec's `InvalidSegmentLength` error class: a declared length is smaller than 2. -/
def isInvalidSegmentLength : ParseError → Bool
  | .badSOSSeglen => true
  | .badSegmentSeglen => true
  | _ => false

/-- The spec's `UnterminatedRecord` error class: no end marker before blob exhaustion. -/
def isUnterminatedRecord : ParseError → Bool
  | .eoiNotFound => true
  | _ => false

/-- `NO_LEN` from `split_jpeg.py`: markers that do NOT have a length field
(`set([0xD8, 0xD9] + list(range(0xD0, 0xD8)) + [0x01])`, i.e. SOI, EOI, RST0-7, TEM). -/
def NO_LEN : List Nat := [0xD8, 0xD9, 0xD0, 0xD1, 0xD2, 0xD3, 0xD4, 0xD5, 0xD6, 0xD7, 0x01]

/-- `_u16be(data[i:i+2])` from `split_jpeg.py`: a 16-bit big-endian value
read at offset `i` (every caller first checks `i + 2 <= len(data)`). -/
def u16be (data : List Nat) (i : Nat) : Nat :=
  256 * data.getD i 0 + data.getD (i + 1) 0

/-- Fuelled form of the inner fill-byte loop of `parse_one_jpeg`
(`while j < n and data[j] == 0xFF: j += 1`).  The loop body runs only while
`j < data.length` and increments `j` by one, so `data.length - j` bounds the
number of iterations exactly; at fuel 0 we have `j ≥ data.length`, where the
while-condition is false and the loop leaves `j` unchanged. -/
def skipFFGo (data : List Nat) : Nat → Nat → Nat
  | 0, j => j
  | k + 1, j =>
      if j < data.length ∧ data.getD j 0 = 0xFF then skipFFGo data k (j + 1) else j

/-- The inner fill-byte loop of `parse_one_jpeg`: starting at `j`, skip a run
of 0xFF bytes, returning the first index `≥ j` holding a non-0xFF byte (or an
index `≥ data.length` if the run reaches the end of the blob). -/
def skipFF (data : List Nat) (j : Nat) : Nat :=
  skipFFGo data (data.length - j) j

/-- Outcome of one iteration of the `while i < n - 1` loop of `parse_one_jpeg`:
`done e` models `return i`, `fail err` models raising, `next i s` models
`continue` with the updated cursor and `in_scan` flag. -/
inductive StepResult where
  | done (e : Nat)
  | fail (err : ParseError)
  | next (i : Nat) (s : Bool)
  deriving DecidableEq

/-- One iteration of the scanning loop of `parse_one_jpeg`, transcribed from
`split_jpeg.py` lines 30-77.  `i` is the cursor, `s` is `in_scan`; the Python
locals `n`, `j` and `marker` are written inline as `data.length`,
`skipFF data i` and `data.getD (skipFF data i) 0`.  The second branch's
`.fail .eoiNotFound` models the `break` when a fill-byte run reaches the blob
end (the code then falls out of the loop and raises "EOI not found"); the
outer `else` models the loop condition `i < n - 1` failing, after which the
function raises the same error. -/
def parseStep (data : List Nat) (i : Nat) (s : Bool) : StepResult :=
  if i < data.length - 1 then
    if data.getD i 0 ≠ 0xFF then
      .next (i + 1) s
    else if skipFF data i ≥ data.length then
      .fail .eoiNotFound
    else if s = true ∧ data.getD (skipFF data i) 0 = 0x00 then
      .next (skipFF data i + 1) s
    else if data.getD (skipFF data i) 0 = 0xD9 then
      .done (skipFF data i + 1)
    else if data.getD (skipFF data i) 0 = 0xDA then
      if skipFF data i + 1 + 2 > data.length then
        .fail .truncatedSOSLength
      else if u16be data (skipFF data i + 1) < 2 then
        .fail .badSOSSeglen
      else
        .next (skipFF data i + 1 + u16be data (skipFF data i + 1)) true
    else if data.getD (skipFF data i) 0 ∈ NO_LEN then
      .next (skipFF data i + 1) s
    else
      if skipFF data i + 1 + 2 > data.length then
        .fail .truncatedSegmentLength
      else if u16be data (skipFF data i + 1) < 2 then
        .fail .badSegmentSeglen
      else
        .next (skipFF data i + 1 + u16be data (skipFF data i + 1)) s
  else
    .fail .eoiNotFound

theorem skipFFGo_le (data : List Nat) : ∀ k j, j ≤ skipFFGo data k j := by
  intro k
  induction k with
  | zero => intro j; simp [skipFFGo]
  | succ k ih =>
      intro j
      simp only [skipFFGo]
      split
      · exact Nat.le_trans (Nat.le_succ j) (ih (j + 1))
      · exact Nat.le_refl j

theorem skipFF_le (data : List Nat) (j : Nat) : j ≤ skipFF data j :=
  skipFFGo_le data (data.length - j) j

theorem parseStep_oob {data : List Nat} {i : Nat} (s : Bool)
    (h : ¬ i < data.length - 1) : parseStep data i s = .fail .eoiNotFound := by
  unfold parseStep
  simp only [if_neg h]

/-- Every `.next` outcome of a loop iteration strictly advances the cursor,
starts from inside the loop bound, and changes the `in_scan` flag only by
setting it on a scan-start (0xDA) marker. -/
theorem parseStep_next_facts {data : List Nat} {i : Nat} {s : Bool} {i' : Nat} {s' : Bool}
    (h : parseStep data i s = .next i' s') :
    i < i' ∧ i < data.length - 1 ∧
      (s' = s ∨ (s' = true ∧ data.getD (skipFF data i) 0 = 0xDA)) := by
  have hj := skipFF_le data i
  unfold parseStep at h
  split_ifs at h with h1 h2 h3 h4 h5 h6 h7 h8 h9 h10 h11 <;>
    first
      | (cases h; exact ⟨by omega, by assumption, Or.inl rfl⟩)
      | (cases h; exact ⟨by omega, by assumption, Or.inr ⟨rfl, by assumption⟩⟩)

/-- Every `.done` outcome returns the offset just past an end-of-record
marker byte 0xD9, strictly past the iteration's cursor and within bounds. -/
theorem parseStep_done_facts {data : List Nat} {i : Nat} {s : Bool} {e : Nat}
    (h : parseStep data i s = .done e) :
    i < e ∧ e ≤ data.length ∧ data.getD (e - 1) 0 = 0xD9 := by
  have hj := skipFF_le data i
  unfold parseStep at h
  split_ifs at h with h1 h2 h3 h4 h5 h6 h7 h8 h9 h10 h11 <;>
    (cases h; exact ⟨by omega, by omega, by simpa using h5⟩)

/-- A loop iteration never fails with the precondition error `startNotAtSOI`
(that error is raised only by the guard at the top of `parse_one_jpeg`). -/
theorem parseStep_fail_ne_soi {data : List Nat} {i : Nat} {s : Bool} {err : ParseError}
    (h : parseStep data i s = .fail err) : err ≠ .startNotAtSOI := by
  unfold parseStep at h
  split_ifs at h <;> (cases h; simp)

/-- The `while i < n - 1` loop of `parse_one_jpeg` (`split_jpeg.py` lines
30-77), starting from cursor `i` with `in_scan = s`: iterate `parseStep`
until it returns (`.done`) or raises (`.fail`).  Termination: every `.next`
iteration strictly increases the cursor (`parseStep_next_facts`). -/
def parseLoop (data : List Nat) (i : Nat) (s : Bool) : Except ParseError Nat :=
  match hstep : parseStep data i s with
  | .done e => .ok e
  | .fail err => .error err
  | .next i' s' => parseLoop data i' s'
termination_by data.length - i
decreasing_by
  have h := parseStep_next_facts hstep
  omega

theorem parseLoop_done {data : List Nat} {i : Nat} {s : Bool} {e : Nat}
    (h : parseStep data i s = .done e) : parseLoop data i s = .ok e := by
  rw [parseLoop]
  split <;> simp_all

theorem parseLoop_fail {data : List Nat} {i : Nat} {s : Bool} {err : ParseError}
    (h : parseStep data i s = .fail err) : parseLoop data i s = .error err := by
  rw [parseLoop]
  split <;> simp_all

theorem parseLoop_next {data : List Nat} {i : Nat} {s : Bool} {i' : Nat} {s' : Bool}
    (h : parseStep data i s = .next i' s') : parseLoop data i s = parseLoop data i' s' := by
  rw [parseLoop]
  split <;> simp_all

/-- Once the cursor is at or past `data.length - 1` the loop condition fails
and the scanner raises "EOI not found". -/
theorem parseLoop_oob {data : List Nat} {i : Nat} (s : Bool)
    (h : data.length - 1 ≤ i) : parseLoop data i s = .error .eoiNotFound :=
  parseLoop_fail (parseStep_oob s (by omega))

/-- A successful run of the scanning loop returns an exclusive end offset
strictly past the starting cursor, within bounds, whose preceding byte is the
end-of-record marker byte 0xD9. -/
theorem parseLoop_ok {data : List Nat} {i : Nat} {s : Bool} {e : Nat}
    (h : parseLoop data i s = .ok e) :
    i < e ∧ e ≤ data.length ∧ data.getD (e - 1) 0 = 0xD9 := by
  generalize hk : data.length - i = k at *
  induction k using Nat.strong_induction_on generalizing i s with
  | _ k ih =>
      match hstep : parseStep data i s with
      | .done e' =>
          rw [parseLoop_done hstep] at h
          obtain rfl : e' = e := by simpa using h
          exact parseStep_done_facts hstep
      | .fail err =>
          rw [parseLoop_fail hstep] at h
          simp at h
      | .next i' s' =>
          rw [parseLoop_next hstep] at h
          have hn := parseStep_next_facts hstep
          have := ih (data.length - i') (by omega) h rfl
          exact ⟨by omega, this.2.1, this.2.2⟩

/-- The scanning loop never produces the precondition error `startNotAtSOI`. -/
theorem parseLoop_ne_soi {data : List Nat} {i : Nat} {s : Bool} {err : ParseError}
    (h : parseLoop data i s = .error err) : err ≠ .startNotAtSOI := by
  generalize hk : data.length - i = k at *
  induction k using Nat.strong_induction_on generalizing i s with
  | _ k ih =>
      match hstep : parseStep data i s with
      | .done e' =>
          rw [parseLoop_done hstep] at h
          simp at h
      | .fail err' =>
          rw [parseLoop_fail hstep] at h
          obtain rfl : err' = err := by simpa using h
          exact parseStep_fail_ne_soi hstep
      | .next i' s' =>
          rw [parseLoop_next hstep] at h
          have hn := parseStep_next_facts hstep
          exact ih (data.length - i') (by omega) h rfl

/-- `parse_one_jpeg(data, start)` from `split_jpeg.py`: `data[start:]` must
begin with the SOI signature `FF D8`; returns the exclusive end offset (right
after EOI) or an error.  The Python guard is
`start < 0 or start + 2 > n or data[start:start+2] != SOI`; when the first
two disjuncts are false the slice `data[start:start+2]` is exactly the two
bytes at `start` and `start + 1`, so the slice comparison is written as the
conjunction of the two byte comparisons. -/
def parse_one_jpeg (data : List Nat) (start : Int) : Except ParseError Nat :=
  if start < 0 ∨ (data.length : Int) < start + 2 ∨
      ¬(data.getD start.toNat 0 = 0xFF ∧ data.getD (start.toNat + 1) 0 = 0xD8) then
    .error .startNotAtSOI
  else
    parseLoop data (start.toNat + 2) false

/-- `parse_one_jpeg` either rejects its precondition or runs the scanning
loop from `start + 2` with `in_scan = False`. -/
theorem parse_one_jpeg_cases (data : List Nat) (start : Int) :
    parse_one_jpeg data start = .error .startNotAtSOI ∨
      parse_one_jpeg data start = parseLoop data (start.toNat + 2) false := by
  unfold parse_one_jpeg
  split
  · exact Or.inl rfl
  · exact Or.inr rfl

/-- A successful `parse_one_jpeg` implies `start` was in bounds and the
returned end offset is strictly past `start + 2`, within bounds, and sits
right after an end-of-record marker byte. -/
theorem parse_one_jpeg_ok {data : List Nat} {start : Int} {e : Nat}
    (h : parse_one_jpeg data start = .ok e) :
    0 ≤ start ∧ start.toNat + 2 < e ∧ e ≤ data.length ∧ data.getD (e - 1) 0 = 0xD9 := by
  unfold parse_one_jpeg at h
  split at h
  · simp at h
  · rename_i hg
    push_neg at hg
    have hb := parseLoop_ok h
    exact ⟨hg.1, hb.1, hb.2.1, hb.2.2⟩

/-- Fuelled linear scan underlying `data.find(SOI, start)`: try each offset
from `pos` upward, fuel bounding the number of offsets left to try.  An
occurrence of the two-byte pattern at `soi` requires `soi + 2 ≤ data.length`,
so fuel `data.length - pos` covers every candidate offset. -/
def findSOIGo (data : List Nat) : Nat → Nat → Option Nat
  | 0, _ => none
  | k + 1, pos =>
      if pos + 2 ≤ data.length ∧ data.getD pos 0 = 0xFF ∧ data.getD (pos + 1) 0 = 0xD8 then
        some pos
      else
        findSOIGo data k (pos + 1)

/-- `find_next_soi(data, start)` from `split_jpeg.py`, i.e.
`data.find(SOI, start)` with `SOI = b"\xFF\xD8"`: the smallest offset
`≥ start` where the two-byte SOI signature occurs; Python's not-found
sentinel `-1` is modelled as `none`. -/
def find_next_soi (data : List Nat) (start : Nat) : Option Nat :=
  findSOIGo data (data.length - start) start

theorem findSOIGo_some {data : List Nat} :
    ∀ k pos soi, findSOIGo data k pos = some soi →
      pos ≤ soi ∧ soi + 2 ≤ data.length ∧
        data.getD soi 0 = 0xFF ∧ data.getD (soi + 1) 0 = 0xD8 := by
  intro k
  induction k with
  | zero => intro pos soi h; simp [findSOIGo] at h
  | succ k ih =>
      intro pos soi h
      simp only [findSOIGo] at h
      split at h
      · cases h
        rename_i hc
        exact ⟨Nat.le_refl _, hc.1, hc.2.1, hc.2.2⟩
      · have := ih (pos + 1) soi h
        exact ⟨by omega, this.2.1, this.2.2⟩

/-- Any offset returned by `find_next_soi` is at or past the search position,
leaves room for the two signature bytes, and holds the signature. -/
theorem find_next_soi_some {data : List Nat} {pos soi : Nat}
    (h : find_next_soi data pos = some soi) :
    pos ≤ soi ∧ soi + 2 ≤ data.length ∧
      data.getD soi 0 = 0xFF ∧ data.getD (soi + 1) 0 = 0xD8 :=
  findSOIGo_some (data.length - pos) pos soi h

/-- A byte range extracted by the splitter: the spec's ExtractedRecord
`{start, end}` with `end` exclusive.  The `end` field is named `stop` here
because `end` is a reserved word in Lean. -/
structure ExtractedRecord where
  start : Nat
  stop : Nat
  deriving DecidableEq

/-- The `while True` loop of `split_concatenated_jpegs` (`split_jpeg.py`
lines 89-105), stripped of its file output: from search position `pos`,
find the next SOI signature; if none, stop; otherwise try `parse_one_jpeg`
there, and either record the range and resume at its end, or (on any
`ValueError`) skip two bytes past the rejected candidate and retry. -/
def splitLoop (data : List Nat) (pos : Nat) : List ExtractedRecord :=
  match hf : find_next_soi data pos with
  | none => []
  | some soi =>
      match hp : parse_one_jpeg data (soi : Int) with
      | .error _ => splitLoop data (soi + 2)
      | .ok e => ⟨soi, e⟩ :: splitLoop data e
termination_by data.length - pos
decreasing_by
  · have h1 := find_next_soi_some hf
    omega
  · have h1 := find_next_soi_some hf
    have h2 := parse_one_jpeg_ok hp
    omega

/-- `split_concatenated_jpegs` from `split_jpeg.py`, with the file reading
and writing stripped: the ordered list of extracted records of one full pass
over the blob, starting at search position 0.  (The Python function writes
one output file per record and returns their count, i.e. the length of this
list.) -/
def split_concatenated_jpegs (data : List Nat) : List ExtractedRecord :=
  splitLoop data 0

theorem splitLoop_none {data : List Nat} {pos : Nat}
    (h : find_next_soi data pos = none) : splitLoop data pos = [] := by
  rw [splitLoop]
  split <;> simp_all

theorem splitLoop_error {data : List Nat} {pos soi : Nat} {err : ParseError}
    (hf : find_next_soi data pos = some soi)
    (hp : parse_one_jpeg data (soi : Int) = .error err) :
    splitLoop data pos = splitLoop data (soi + 2) := by
  rw [splitLoop]
  split
  · simp_all
  · rename_i soi' heq
    rw [hf] at heq
    cases heq
    split <;> simp_all

theorem splitLoop_ok {data : List Nat} {pos soi e : Nat}
    (hf : find_next_soi data pos = some soi)
    (hp : parse_one_jpeg data (soi : Int) = .ok e) :
    splitLoop data pos = ⟨soi, e⟩ :: splitLoop data e := by
  rw [splitLoop]
  split
  · simp_all
  · rename_i soi' heq
    rw [hf] at heq
    cases heq
    split <;> simp_all

/-- Fuelled form of the scanning loop, used both to evaluate the
well-founded `parseLoop` on concrete blobs and to state its termination
bound: `none` means the fuel ran out before the loop finished. -/
def parseLoopFuel (data : List Nat) : Nat → Nat → Bool → Option (Except ParseError Nat)
  | 0, _, _ => none
  | fuel + 1, i, s =>
      match parseStep data i s with
      | .done e => some (.ok e)
      | .fail err => some (.error err)
      | .next i' s' => parseLoopFuel data fuel i' s'

/-- The scanning loop terminates in at most `data.length - i` iterations:
any fuel beyond that bound is never exhausted, and the fuelled loop computes
exactly the result of `parseLoop`. -/
theorem parseLoopFuel_sound (data : List Nat) :
    ∀ fuel i s, data.length - i < fuel →
      parseLoopFuel data fuel i s = some (parseLoop data i s) := by
  intro fuel
  induction fuel with
  | zero => intro i s h; omega
  | succ fuel ih =>
      intro i s h
      match hstep : parseStep data i s with
      | .done e =>
          rw [parseLoop_done hstep]
          simp [parseLoopFuel, hstep]
      | .fail err =>
          rw [parseLoop_fail hstep]
          simp [parseLoopFuel, hstep]
      | .next i' s' =>
          rw [parseLoop_next hstep]
          have hn := parseStep_next_facts hstep
          simp only [parseLoopFuel, hstep]
          exact ih i' s' (by omega)

/-- Fuelled form of `parse_one_jpeg`, with the same precondition guard but
running the fuelled scanning loop. -/
def parse_one_jpeg_fuel (data : List Nat) (fuel : Nat) (start : Int) :
    Option (Except ParseError Nat) :=
  if start < 0 ∨ (data.length : Int) < start + 2 ∨
      ¬(data.getD start.toNat 0 = 0xFF ∧ data.getD (start.toNat + 1) 0 = 0xD8) then
    some (.error .startNotAtSOI)
  else
    parseLoopFuel data fuel (start.toNat + 2) false

theorem parse_one_jpeg_fuel_sound (data : List Nat) (fuel : Nat) (start : Int)
    (h : data.length < fuel) :
    parse_one_jpeg_fuel data fuel start = some (parse_one_jpeg data start) := by
  unfold parse_one_jpeg_fuel parse_one_jpeg
  split
  · rfl
  · exact parseLoopFuel_sound data fuel _ false (by omega)

/-- Evaluation rule: to compute `parse_one_jpeg` on a concrete blob, run the
fuelled version with fuel `data.length + 1`. -/
theorem parse_one_jpeg_eval (data : List Nat) (start : Int) (r : Except ParseError Nat)
    (h : parse_one_jpeg_fuel data (data.length + 1) start = some r) :
    parse_one_jpeg data start = r := by
  have := parse_one_jpeg_fuel_sound data (data.length + 1) start (by omega)
  rw [h] at this
  exact (Option.some_injective _ this).symm

/-- Fuelled form of the splitting loop (`none` = fuel exhausted); the inner
record scan runs with its always-sufficient fuel `data.length + 1`. -/
def splitLoopFuel (data : List Nat) : Nat → Nat → Option (List ExtractedRecord)
  | 0, _ => none
  | fuel + 1, pos =>
      match find_next_soi data pos with
      | none => some []
      | some soi =>
          match parse_one_jpeg_fuel data (data.length + 1) (soi : Int) with
          | none => none
          | some (.error _) => splitLoopFuel data fuel (soi + 2)
          | some (.ok e) => (splitLoopFuel data fuel e).map (fun rs => ⟨soi, e⟩ :: rs)

/-- The splitting pass terminates in at most `data.length - pos` candidate
attempts: any fuel beyond that bound is never exhausted, and the fuelled pass
computes exactly the records of `splitLoop`. -/
theorem splitLoopFuel_sound (data : List Nat) :
    ∀ fuel pos, data.length - pos < fuel →
      splitLoopFuel data fuel pos = some (splitLoop data pos) := by
  intro fuel
  induction fuel with
  | zero => intro pos h; omega
  | succ fuel ih =>
      intro pos h
      match hf : find_next_soi data pos with
      | none =>
          rw [splitLoop_none hf]
          simp [splitLoopFuel, hf]
      | some soi =>
          have hs := find_next_soi_some hf
          have hpar := parse_one_jpeg_fuel_sound data (data.length + 1) (soi : Int)
            (by omega)
          match hp : parse_one_jpeg data (soi : Int) with
          | .error err =>
              rw [splitLoop_error hf hp]
              rw [hp] at hpar
              simp only [splitLoopFuel, hf, hpar]
              exact ih (soi + 2) (by omega)
          | .ok e =>
              have hb := parse_one_jpeg_ok hp
              rw [splitLoop_ok hf hp]
              rw [hp] at hpar
              simp only [splitLoopFuel, hf, hpar]
              rw [ih e (by omega)]
              rfl

/-- Evaluation rule: to compute `split_concatenated_jpegs` on a concrete
blob, run the fuelled version with fuel `data.length + 1`. -/
theorem split_concatenated_jpegs_eval (data : List Nat) (rs : List ExtractedRecord)
    (h : splitLoopFuel data (data.length + 1) 0 = some rs) :
    split_concatenated_jpegs data = rs := by
  have := splitLoopFuel_sound data (data.length + 1) 0 (by omega)
  rw [h] at this
  exact (Option.some_injective _ this).symm

/-- Every record produced from search position `pos` starts at or past
`pos`: the search position only moves forward. -/
theorem splitLoop_mem_start (data : List Nat) :
    ∀ k pos r, data.length - pos ≤ k → r ∈ splitLoop data pos → pos ≤ r.start := by
  intro k
  induction k with
  | zero =>
      intro pos r hk hr
      match hf : find_next_soi data pos with
      | none => rw [splitLoop_none hf] at hr; simp at hr
      | some soi => have := find_next_soi_some hf; omega
  | succ k ih =>
      intro pos r hk hr
      match hf : find_next_soi data pos with
      | none => rw [splitLoop_none hf] at hr; simp at hr
      | some soi =>
          have hs := find_next_soi_some hf
          match hp : parse_one_jpeg data (soi : Int) with
          | .error err =>
              rw [splitLoop_error hf hp] at hr
              have := ih (soi + 2) r (by omega) hr
              omega
          | .ok e =>
              have hb := parse_one_jpeg_ok hp
              rw [splitLoop_ok hf hp] at hr
              rcases List.mem_cons.mp hr with hr | hr
              · subst hr; simpa using hs.1
              · have := ih e r (by omega) hr
                omega

/-- Consecutive records produced from any search position never overlap:
each record's exclusive end is at most the next record's start. -/
theorem splitLoop_chain (data : List Nat) :
    ∀ k pos, data.length - pos ≤ k →
      List.Chain' (fun a b => a.stop ≤ b.start) (splitLoop data pos) := by
  intro k
  induction k with
  | zero =>
      intro pos hk
      match hf : find_next_soi data pos with
      | none => rw [splitLoop_none hf]; exact List.chain'_nil
      | some soi => have := find_next_soi_some hf; omega
  | succ k ih =>
      intro pos hk
      match hf : find_next_soi data pos with
      | none => rw [splitLoop_none hf]; exact List.chain'_nil
      | some soi =>
          have hs := find_next_soi_some hf
          match hp : parse_one_jpeg data (soi : Int) with
          | .error err =>
              rw [splitLoop_error hf hp]
              exact ih (soi + 2) (by omega)
          | .ok e =>
              have hb := parse_one_jpeg_ok hp
              rw [splitLoop_ok hf hp]
              refine List.chain'_cons'.mpr ⟨?_, ih e (by omega)⟩
              intro b hb'
              have hmem : b ∈ splitLoop data e := List.mem_of_mem_head? hb'
              exact splitLoop_mem_start data (data.length - e) e b (by omega) hmem

/-- Blob of the spec's concrete scenario: `FFD8` (SOI), `FFE0 0004 0102`
(length-prefixed segment of declared length 4), `FFDA 0002` (scan-start with
zero-length scan header), `AA FF00 BB` (payload with stuffed literal),
`FFD9` (EOI); 18 bytes in total. -/
def exampleBlob : List Nat :=
  [0xFF, 0xD8, 0xFF, 0xE0, 0x00, 0x04, 0x01, 0x02,
   0xFF, 0xDA, 0x00, 0x02, 0xAA, 0xFF, 0x00, 0xBB, 0xFF, 0xD9]

/-- C1: for the 18-byte blob FF D8 FF E0 00 04 01 02 FF DA 00 02 AA FF 00 BB
FF D9, `parse_one_jpeg` at offset 0 returns 18, the blob length, and the
splitter yields exactly one record spanning offsets 0 to 18. -/
theorem C1_example_blob_single_record :
    parse_one_jpeg exampleBlob 0 = .ok 18 ∧
      split_concatenated_jpegs exampleBlob = [⟨0, 18⟩] ∧
      exampleBlob.length = 18 :=
  ⟨parse_one_jpeg_eval _ _ _ rfl, split_concatenated_jpegs_eval _ _ rfl, rfl⟩

/-- C2: while `in_scan` is true, an escape byte 0xFF at the cursor (its
fill-byte run collapsed by `skipFF`) whose category byte is 0x00 is not
treated as a marker and does not end the scan: the iteration just advances
the cursor past the zero byte and keeps scanning with `in_scan` still true. -/
theorem C2_stuffed_zero_not_marker (data : List Nat) (i : Nat)
    (hlt : i < data.length - 1) (hFF : data.getD i 0 = 0xFF)
    (hj : skipFF data i < data.length)
    (h0 : data.getD (skipFF data i) 0 = 0x00) :
    parseStep data i true = .next (skipFF data i + 1) true := by
  unfold parseStep
  rw [if_pos hlt, if_neg (not_not_intro hFF), if_neg (by omega), if_pos ⟨rfl, h0⟩]

/-- Witness for C2 at the blob FF D8 FF 00 BB, cursor 2: the stuffed pair
FF 00 is skipped and scanning continues at offset 4. -/
theorem C2_witness :
    parseStep [0xFF, 0xD8, 0xFF, 0x00, 0xBB] 2 true = .next 4 true := by
  have h := C2_stuffed_zero_not_marker [0xFF, 0xD8, 0xFF, 0x00, 0xBB] 2
    (by decide) rfl (by decide) (by decide)
  exact h.trans (by decide)

/-- C3: in the ordered sequence of records produced by one splitting pass,
every pair of consecutive records satisfies `record[i].end ≤ record[i+1].start`. -/
theorem C3_records_ordered_disjoint (data : List Nat) :
    List.Chain' (fun a b => a.stop ≤ b.start) (split_concatenated_jpegs data) :=
  splitLoop_chain data data.length 0 (by omega)

/-- C4: when the record scan at a candidate SOI offset fails with any error,
the splitter yields no record for it and continues the pass from exactly
`soi + 2` (the splitter itself is a total function and never raises). -/
theorem C4_failed_candidate_skipped (data : List Nat) (pos soi : Nat) (err : ParseError)
    (hf : find_next_soi data pos = some soi)
    (hp : parse_one_jpeg data (soi : Int) = .error err) :
    splitLoop data pos = splitLoop data (soi + 2) :=
  splitLoop_error hf hp

/-- Witness for C4 at the blob FF D8 (an SOI with nothing after it): the
candidate at 0 fails, and the pass continues from offset 2. -/
theorem C4_witness :
    splitLoop [0xFF, 0xD8] 0 = splitLoop [0xFF, 0xD8] 2 :=
  C4_failed_candidate_skipped [0xFF, 0xD8] 0 0 .eoiNotFound rfl
    (parse_one_jpeg_eval _ _ _ rfl)

/-- Counterexample to C5: in the blob FF D8 FF E0 00 10, the segment at
offset 3 declares length 16 with its two length bytes readable
(`4 + 2 ≤ 6`), and advancing by it runs past the blob end (`6 < 4 + 16`);
the claim says the scan fails with TruncatedSegment, but the code just
advances the cursor to 20 and then fails with "EOI not found"
(UnterminatedRecord), which is not a TruncatedSegment error. -/
theorem C5_counterexample :
    u16be [0xFF, 0xD8, 0xFF, 0xE0, 0x00, 0x10] 4 = 16 ∧
      4 + 2 ≤ [0xFF, 0xD8, 0xFF, 0xE0, 0x00, 0x10].length ∧
      [0xFF, 0xD8, 0xFF, 0xE0, 0x00, 0x10].length < 4 + 16 ∧
      parseStep [0xFF, 0xD8, 0xFF, 0xE0, 0x00, 0x10] 2 false = .next 20 false ∧
      parse_one_jpeg [0xFF, 0xD8, 0xFF, 0xE0, 0x00, 0x10] 0 = .error .eoiNotFound ∧
      isTruncatedSegment .eoiNotFound = false :=
  ⟨rfl, by decide, by decide, rfl, parse_one_jpeg_eval _ _ _ rfl, rfl⟩

/-- C5 as amended: a length-prefixed or scan-start segment whose declared
length `L ≥ 2` is readable but would advance the cursor past the blob end
makes the record scan fail, but with UnterminatedRecord ("EOI not found"),
not TruncatedSegment: the code only bounds-checks the two length bytes, so
the cursor is advanced past the end and the loop exits without an EOI. -/
theorem C5_amended_overrun_fails_unterminated (data : List Nat) (i : Nat) (s : Bool)
    (hlt : i < data.length - 1) (hFF : data.getD i 0 = 0xFF)
    (hj : skipFF data i < data.length)
    (hns : ¬(s = true ∧ data.getD (skipFF data i) 0 = 0x00))
    (hkind : data.getD (skipFF data i) 0 = 0xDA ∨ data.getD (skipFF data i) 0 ∉ NO_LEN)
    (hread : skipFF data i + 1 + 2 ≤ data.length)
    (hL : 2 ≤ u16be data (skipFF data i + 1))
    (hover : data.length < skipFF data i + 1 + u16be data (skipFF data i + 1)) :
    parseLoop data i s = .error .eoiNotFound := by
  have hd9 : ¬ data.getD (skipFF data i) 0 = 0xD9 := by
    rcases hkind with h | h
    · rw [h]; omega
    · intro hc; exact h (by rw [hc]; decide)
  by_cases hda : data.getD (skipFF data i) 0 = 0xDA
  · have hstep : parseStep data i s =
        .next (skipFF data i + 1 + u16be data (skipFF data i + 1)) true := by
      unfold parseStep
      rw [if_pos hlt, if_neg (not_not_intro hFF), if_neg (by omega), if_neg hns,
        if_neg hd9, if_pos hda, if_neg (by omega), if_neg (by omega)]
    rw [parseLoop_next hstep]
    exact parseLoop_oob _ (by omega)
  · have hnl : data.getD (skipFF data i) 0 ∉ NO_LEN := by
      rcases hkind with h | h
      · exact absurd h hda
      · exact h
    have hstep : parseStep data i s =
        .next (skipFF data i + 1 + u16be data (skipFF data i + 1)) s := by
      unfold parseStep
      rw [if_pos hlt, if_neg (not_not_intro hFF), if_neg (by omega), if_neg hns,
        if_neg hd9, if_neg hda, if_neg hnl, if_neg (by omega), if_neg (by omega)]
    rw [parseLoop_next hstep]
    exact parseLoop_oob _ (by omega)

/-- Witness for the amended C5 at the blob FF D8 FF E0 00 10: the scan from
cursor 2 fails with "EOI not found". -/
theorem C5_amended_witness :
    parseLoop [0xFF, 0xD8, 0xFF, 0xE0, 0x00, 0x10] 2 false = .error .eoiNotFound :=
  C5_amended_overrun_fails_unterminated [0xFF, 0xD8, 0xFF, 0xE0, 0x00, 0x10] 2 false
    (by decide) rfl (by decide) (by decide) (Or.inr (by decide)) (by decide)
    (by decide) (by decide)

/-- C6: a length-prefixed or scan-start segment whose declared 16-bit
big-endian length `L` is readable: if `L ≥ 2`, the cursor after consuming
the segment is the length-field position plus exactly `L` (the declared
length counts its own two bytes), with `in_scan` becoming true exactly on a
scan-start marker; if `L < 2`, the scan fails with an InvalidSegmentLength
error. -/
theorem C6_declared_length_consumption (data : List Nat) (i : Nat) (s : Bool)
    (hlt : i < data.length - 1) (hFF : data.getD i 0 = 0xFF)
    (hj : skipFF data i < data.length)
    (hns : ¬(s = true ∧ data.getD (skipFF data i) 0 = 0x00))
    (hkind : data.getD (skipFF data i) 0 = 0xDA ∨ data.getD (skipFF data i) 0 ∉ NO_LEN)
    (hread : skipFF data i + 1 + 2 ≤ data.length) :
    (2 ≤ u16be data (skipFF data i + 1) →
      parseStep data i s =
        .next (skipFF data i + 1 + u16be data (skipFF data i + 1))
          (if data.getD (skipFF data i) 0 = 0xDA then true else s)) ∧
    (u16be data (skipFF data i + 1) < 2 →
      ∃ err, parseStep data i s = .fail err ∧ isInvalidSegmentLength err = true) := by
  have hd9 : ¬ data.getD (skipFF data i) 0 = 0xD9 := by
    rcases hkind with h | h
    · rw [h]; omega
    · intro hc; exact h (by rw [hc]; decide)
  by_cases hda : data.getD (skipFF data i) 0 = 0xDA
  · constructor
    · intro hL
      rw [if_pos hda]
      unfold parseStep
      rw [if_pos hlt, if_neg (not_not_intro hFF), if_neg (by omega), if_neg hns,
        if_neg hd9, if_pos hda, if_neg (by omega), if_neg (by omega)]
    · intro hL
      refine ⟨.badSOSSeglen, ?_, rfl⟩
      unfold parseStep
      rw [if_pos hlt, if_neg (not_not_intro hFF), if_neg (by omega), if_neg hns,
        if_neg hd9, if_pos hda, if_neg (by omega), if_pos hL]
  · have hnl : data.getD (skipFF data i) 0 ∉ NO_LEN := by
      rcases hkind with h | h
      · exact absurd h hda
      · exact h
    constructor
    · intro hL
      rw [if_neg hda]
      unfold parseStep
      rw [if_pos hlt, if_neg (not_not_intro hFF), if_neg (by omega), if_neg hns,
        if_neg hd9, if_neg hda, if_neg hnl, if_neg (by omega), if_neg (by omega)]
    · intro hL
      refine ⟨.badSegmentSeglen, ?_, rfl⟩
      unfold parseStep
      rw [if_pos hlt, if_neg (not_not_intro hFF), if_neg (by omega), if_neg hns,
        if_neg hd9, if_neg hda, if_neg hnl, if_neg (by omega), if_pos hL]

/-- Witness for C6: in the example blob the APP0 segment at offset 3
declares length 4, so the cursor moves from the length field at 4 to 8; in
the blob FF D8 FF E0 00 01 the declared length 1 is rejected as an
InvalidSegmentLength error. -/
theorem C6_witness :
    parseStep exampleBlob 2 false = .next 8 false ∧
      (∃ err, parseStep [0xFF, 0xD8, 0xFF, 0xE0, 0x00, 0x01] 2 false = .fail err ∧
        isInvalidSegmentLength err = true) := by
  constructor
  · have h := (C6_declared_length_consumption exampleBlob 2 false (by decide) rfl
      (by decide) (by decide) (Or.inr (by decide)) (by decide)).1 (by decide)
    exact h.trans (by decide)
  · exact (C6_declared_length_consumption [0xFF, 0xD8, 0xFF, 0xE0, 0x00, 0x01] 2 false
      (by decide) rfl (by decide) (by decide) (Or.inr (by decide)) (by decide)).2
      (by decide)

/-- C7: the scan-state flag starts false for every record scan (the scan is
entered at `start + 2` with `in_scan = False` unless the precondition is
rejected), becomes true only by consuming the scan-start marker 0xDA, and
once true is never reset by any loop iteration. -/
theorem C7_scanstate_lifecycle :
    (∀ (data : List Nat) (start : Int),
      parse_one_jpeg data start = .error .startNotAtSOI ∨
        parse_one_jpeg data start = parseLoop data (start.toNat + 2) false) ∧
    (∀ (data : List Nat) (i i' : Nat) (s' : Bool),
      parseStep data i false = .next i' s' → s' = true →
        data.getD (skipFF data i) 0 = 0xDA) ∧
    (∀ (data : List Nat) (i i' : Nat) (s' : Bool),
      parseStep data i true = .next i' s' → s' = true) := by
  refine ⟨parse_one_jpeg_cases, ?_, ?_⟩
  · intro data i i' s' h hs
    rcases (parseStep_next_facts h).2.2 with h' | h'
    · rw [hs] at h'; simp at h'
    · exact h'.2
  · intro data i i' s' h
    rcases (parseStep_next_facts h).2.2 with h' | h'
    · exact h'
    · exact h'.1

/-- Witness for C7: in FF D8 FF DA 00 02 AA the flag turns true exactly at
the scan-start marker, and in FF 00 AA a scan-mode iteration keeps it true. -/
theorem C7_witness :
    [0xFF, 0xD8, 0xFF, 0xDA, 0x00, 0x02, 0xAA].getD
        (skipFF [0xFF, 0xD8, 0xFF, 0xDA, 0x00, 0x02, 0xAA] 2) 0 = 0xDA ∧
      true = true :=
  ⟨C7_scanstate_lifecycle.2.1 [0xFF, 0xD8, 0xFF, 0xDA, 0x00, 0x02, 0xAA] 2 6 true rfl rfl,
   C7_scanstate_lifecycle.2.2 [0xFF, 0x00, 0xAA] 0 2 true rfl⟩

/-- C8: every successful single-record scan started at `start` returns an
exclusive end offset `e` with `start < e ≤ blob length`, positioned
immediately after the end-marker category byte 0xD9. -/
theorem C8_success_end_bounds (data : List Nat) (start : Int) (e : Nat)
    (h : parse_one_jpeg data start = .ok e) :
    start < (e : Int) ∧ e ≤ data.length ∧ data.getD (e - 1) 0 = 0xD9 := by
  have hb := parse_one_jpeg_ok h
  have h0 := hb.1
  have h1 := hb.2.1
  exact ⟨by omega, hb.2.2.1, hb.2.2.2⟩

/-- Witness for C8 on the example blob: the scan from 0 ends at 18, within
the 18-byte blob, right after the end marker byte. -/
theorem C8_witness :
    (0 : Int) < ((18 : Nat) : Int) ∧ 18 ≤ exampleBlob.length ∧
      exampleBlob.getD (18 - 1) 0 = 0xD9 :=
  C8_success_end_bounds exampleBlob 0 18 (parse_one_jpeg_eval _ _ _ rfl)

/-- C9: both loops terminate.  Within one record scan the cursor strictly
increases on every iteration, so fuel `data.length - i` is never exhausted
and the fuelled loop computes `parseLoop`'s result; likewise the splitting
pass's search position strictly increases per candidate, so fuel
`data.length - pos` suffices for `splitLoop`. -/
theorem C9_termination :
    (∀ (data : List Nat) (i : Nat) (s : Bool) (i' : Nat) (s' : Bool),
      parseStep data i s = .next i' s' → i < i') ∧
    (∀ (data : List Nat) (fuel i : Nat) (s : Bool), data.length - i < fuel →
      parseLoopFuel data fuel i s = some (parseLoop data i s)) ∧
    (∀ (data : List Nat) (fuel pos : Nat), data.length - pos < fuel →
      splitLoopFuel data fuel pos = some (splitLoop data pos)) :=
  ⟨fun _ _ _ _ _ h => (parseStep_next_facts h).1,
   fun data fuel i s h => parseLoopFuel_sound data fuel i s h,
   fun data fuel pos h => splitLoopFuel_sound data fuel pos h⟩

/-- Witness for C9 on the example blob: one concrete advancing step, and
both fuelled loops finishing within fuel 19. -/
theorem C9_witness :
    (2 : Nat) < 8 ∧
      parseLoopFuel exampleBlob 19 2 false = some (parseLoop exampleBlob 2 false) ∧
      splitLoopFuel exampleBlob 19 0 = some (splitLoop exampleBlob 0) :=
  ⟨C9_termination.1 exampleBlob 2 false 8 false rfl,
   C9_termination.2.1 exampleBlob 19 2 false (by decide),
   C9_termination.2.2 exampleBlob 19 0 (by decide)⟩

/-- C10: `parse_one_jpeg` fails with the precondition error exactly when
`start < 0`, `start + 2` exceeds the blob length, or the two bytes at
`start` are not FF D8; moreover when one of the first two (pure bounds)
conditions holds it fails for every blob of that length without consulting
the blob's bytes. -/
theorem C10_precondition_validation :
    (∀ (data : List Nat) (start : Int),
      parse_one_jpeg data start = .error .startNotAtSOI ↔
        (start < 0 ∨ (data.length : Int) < start + 2 ∨
          ¬(data.getD start.toNat 0 = 0xFF ∧ data.getD (start.toNat + 1) 0 = 0xD8))) ∧
    (∀ (data : List Nat) (start : Int),
      start < 0 ∨ (data.length : Int) < start + 2 →
        parse_one_jpeg data start = .error .startNotAtSOI) := by
  have key : ∀ (data : List Nat) (start : Int),
      parse_one_jpeg data start = .error .startNotAtSOI ↔
        (start < 0 ∨ (data.length : Int) < start + 2 ∨
          ¬(data.getD start.toNat 0 = 0xFF ∧ data.getD (start.toNat + 1) 0 = 0xD8)) := by
    intro data start
    constructor
    · intro h
      by_contra hg
      rw [parse_one_jpeg, if_neg hg] at h
      exact parseLoop_ne_soi h rfl
    · intro hg
      rw [parse_one_jpeg, if_pos hg]
  exact ⟨key, fun data start h => (key data start).mpr (by tauto)⟩

/-- Witness for C10: a negative start offset is rejected on the empty blob. -/
theorem C10_witness : parse_one_jpeg [] (-1) = .error .startNotAtSOI :=
  C10_precondition_validation.2 [] (-1) (Or.inl (by decide))
